import Mathlib

/-!
Verification of `var_eigen.py`, a linear three-stage script
(loader → analyzer → renderer) that reads a two-column GROMACS
eigenvalue file, computes percentage-of-total-variance values and
renders an annotated rank-vs-variance chart.

The embedding models:
* the loader loop (skip lines whose raw first character is '#' or '@',
  `line.strip().split()`, `float(parts[1])` when at least two tokens),
* the analyzer (`total_variance`, `proportion_var`, `ranks`),
* the renderer steps the claims talk about (`plt.ylim(0, proportion_var[0]+5)`,
  the `plt.text` loop over `zip(ranks[:5], proportion_var[:5])`, and the two
  `plt.savefig` calls that only happen after everything before them succeeded).

Numeric values are exact rationals (the usual exact-real idealization of
Python floats).  Division is modelled on an extended type `XF` that mirrors
IEEE semantics at zero denominators (x/0 is ±inf, 0/0 is nan), because the
script divides by `total_variance` without guarding against a zero total.
Python exceptions the script can raise are the `ValueError` of `float(...)`
on a bad token and the `IndexError` of `proportion_var[0]` on an empty array.
-/

set_option autoImplicit false

namespace VarEigen

/-- Python exceptions the script body can raise while computing:
`ValueError` from `float(parts[1])`, `IndexError` from `proportion_var[0]`. -/
inductive PyErr where
  | valueError
  | indexError
  deriving DecidableEq, Repr

/-! ### Tokenization: `line.strip().split()` -/

/-- Python `str.strip()`: remove leading and trailing whitespace. -/
def pyStrip (s : String) : String :=
  String.mk (((s.data.dropWhile Char.isWhitespace).reverse.dropWhile
    Char.isWhitespace).reverse)

/-- Worker for `pySplit`: walk the characters, accumulating the current
token (reversed) and emitting it at whitespace boundaries. -/
def splitWsAux : List Char → List Char → List String
  | [], [] => []
  | [], acc => [String.mk acc.reverse]
  | c :: cs, acc =>
    if c.isWhitespace then
      match acc with
      | [] => splitWsAux cs []
      | _ => String.mk acc.reverse :: splitWsAux cs []
    else splitWsAux cs (c :: acc)

/-- Python `str.split()` with no argument: split on runs of whitespace,
producing no empty tokens. -/
def pySplit (s : String) : List String :=
  splitWsAux s.data []

/-! ### `float(...)` on a token -/

/-- Leading decimal digits of a character list, and the rest. -/
def takeDigits (cs : List Char) : List Char × List Char :=
  (cs.takeWhile Char.isDigit, cs.dropWhile Char.isDigit)

/-- Numeric value of a digit string. -/
def digitsToNat (ds : List Char) : ℕ :=
  ds.foldl (fun a c => a * 10 + (c.toNat - 48)) 0

/-- Python `float(s)` on a whitespace-free token, over the decimal grammar
`[sign] (digits [. digits] | . digits) [(e|E) [sign] digits]`, as exact
rationals; `none` models the `ValueError` raised on a malformed token. -/
def pyFloat? (s : String) : Option ℚ :=
  let step1 : ℚ × List Char :=
    match s.data with
    | '-' :: rest => (-1, rest)
    | '+' :: rest => (1, rest)
    | cs => (1, cs)
  let sgn := step1.1
  let afterIp := takeDigits step1.2
  let ip := afterIp.1
  let step2 : List Char × List Char :=
    match afterIp.2 with
    | '.' :: rest => takeDigits rest
    | cs => ([], cs)
  let fp := step2.1
  if ip.isEmpty && fp.isEmpty then none
  else
    let mant : ℚ := (digitsToNat ip : ℚ) + (digitsToNat fp : ℚ) / 10 ^ fp.length
    match step2.2 with
    | [] => some (sgn * mant)
    | 'e' :: rest =>
      let esgn : ℤ × List Char :=
        match rest with
        | '-' :: r => (-1, r)
        | '+' :: r => (1, r)
        | r => (1, r)
      let ed := takeDigits esgn.2
      if ed.1.isEmpty || !ed.2.isEmpty then none
      else some (sgn * mant * (10 : ℚ) ^ (esgn.1 * (digitsToNat ed.1 : ℤ)))
    | 'E' :: rest =>
      let esgn : ℤ × List Char :=
        match rest with
        | '-' :: r => (-1, r)
        | '+' :: r => (1, r)
        | r => (1, r)
      let ed := takeDigits esgn.2
      if ed.1.isEmpty || !ed.2.isEmpty then none
      else some (sgn * mant * (10 : ℚ) ^ (esgn.1 * (digitsToNat ed.1 : ℤ)))
    | _ => none

/-! ### Loader -/

/-- `line.startswith(('#', '@'))` on the raw, unstripped line: true exactly
when the first character is '#' or '@'. -/
def isCommentLine (line : String) : Bool :=
  match line.data with
  | [] => false
  | c :: _ => c == '#' || c == '@'

/-- The loader loop of the script: for each line, skip it when the raw line
starts with '#' or '@'; otherwise split `line.strip()` on whitespace and,
when there are at least two tokens, append `float(parts[1])`; a malformed
second token aborts with `ValueError`.  Lines with fewer than two tokens
are skipped silently. -/
def load_eigenvalues : List String → Except PyErr (List ℚ)
  | [] => .ok []
  | line :: rest =>
    if isCommentLine line then load_eigenvalues rest
    else
      match pySplit (pyStrip line) with
      | _ :: t :: _ =>
        match pyFloat? t with
        | none => .error .valueError
        | some v => (load_eigenvalues rest).map (fun vs => v :: vs)
      | _ => load_eigenvalues rest

/-- Second whitespace-separated token of a stripped line, when the line has
at least two tokens. -/
def secondToken? (line : String) : Option String :=
  match pySplit (pyStrip line) with
  | _ :: t :: _ => some t
  | _ => none

/-- A line qualifies as a data line: not a comment line, and at least two
whitespace-separated tokens. -/
def qualifies (line : String) : Bool :=
  !isCommentLine line && (secondToken? line).isSome

/-- Parsing one qualifying line: `float` applied to its second token. -/
def parseLine (line : String) : Except PyErr ℚ :=
  match (secondToken? line).bind pyFloat? with
  | some v => .ok v
  | none => .error .valueError

/-! ### Extended values: IEEE behaviour of the division by the total -/

/-- A numpy double in the exact-real idealization: a finite rational or one
of the non-finite values nan, +inf, -inf. -/
inductive XF where
  | fin (q : ℚ)
  | nan
  | pinf
  | ninf
  deriving DecidableEq, Repr

/-- Finiteness predicate on extended values. -/
def XF.isFinite : XF → Bool
  | .fin _ => true
  | _ => false

/-- IEEE-style addition on extended values. -/
def xadd : XF → XF → XF
  | .fin a, .fin b => .fin (a + b)
  | .nan, _ => .nan
  | _, .nan => .nan
  | .pinf, .ninf => .nan
  | .ninf, .pinf => .nan
  | .pinf, _ => .pinf
  | _, .pinf => .pinf
  | .ninf, _ => .ninf
  | _, .ninf => .ninf

/-- IEEE-style subtraction on extended values. -/
def xsub : XF → XF → XF
  | .fin a, .fin b => .fin (a - b)
  | .nan, _ => .nan
  | _, .nan => .nan
  | .pinf, .pinf => .nan
  | .ninf, .ninf => .nan
  | .pinf, _ => .pinf
  | .ninf, _ => .ninf
  | .fin _, .pinf => .ninf
  | .fin _, .ninf => .pinf

/-- IEEE-style multiplication on extended values. -/
def xmul : XF → XF → XF
  | .fin a, .fin b => .fin (a * b)
  | .nan, _ => .nan
  | _, .nan => .nan
  | .fin a, .pinf => if a = 0 then .nan else if 0 < a then .pinf else .ninf
  | .pinf, .fin b => if b = 0 then .nan else if 0 < b then .pinf else .ninf
  | .fin a, .ninf => if a = 0 then .nan else if 0 < a then .ninf else .pinf
  | .ninf, .fin b => if b = 0 then .nan else if 0 < b then .ninf else .pinf
  | .pinf, .pinf => .pinf
  | .ninf, .ninf => .pinf
  | .pinf, .ninf => .ninf
  | .ninf, .pinf => .ninf

/-- IEEE-style division on extended values: at a zero denominator, numpy
produces nan for 0/0 and ±inf otherwise (emitting a warning, not raising). -/
def xdiv : XF → XF → XF
  | .fin a, .fin b =>
    if b = 0 then if a = 0 then .nan else if 0 < a then .pinf else .ninf
    else .fin (a / b)
  | .nan, _ => .nan
  | _, .nan => .nan
  | .fin _, .pinf => .fin 0
  | .fin _, .ninf => .fin 0
  | .pinf, .fin b => if 0 ≤ b then .pinf else .ninf
  | .ninf, .fin b => if 0 ≤ b then .ninf else .pinf
  | _, _ => .nan

/-! ### Analyzer -/

/-- `total_variance = np.sum(eigenvalues)` (0 on the empty array). -/
def total_variance (l : List ℚ) : ℚ :=
  l.sum

/-- `proportion_var = (eigenvalues / total_variance) * 100`, elementwise,
with IEEE behaviour when the total is zero. -/
def proportion_var (l : List ℚ) : List XF :=
  l.map (fun v => xmul (xdiv (.fin v) (.fin (total_variance l))) (.fin 100))

/-- `ranks = np.arange(1, len(eigenvalues) + 1)`. -/
def ranks (n : ℕ) : List ℕ :=
  List.range' 1 n

/-! ### Renderer -/

/-- `plt.ylim(0, proportion_var[0] + 5)`: indexing an empty array raises
`IndexError`; otherwise the upper limit is the first proportion plus 5. -/
def ylimUpper (props : List XF) : Except PyErr XF :=
  match props with
  | [] => .error .indexError
  | p :: _ => .ok (xadd p (.fin 5))

/-- One decimal digit after half-to-even rounding at the first decimal
place, mirroring how Python format rounds. -/
def roundHalfEven (x : ℚ) : ℤ :=
  let f := ⌊x⌋
  let r := x - (f : ℚ)
  if r < 1 / 2 then f
  else if 1 / 2 < r then f + 1
  else if f % 2 = 0 then f else f + 1

/-- Python `format(q, '.1f')` in the exact-rational model: round `q` to one
decimal place (ties to even) and print with exactly one digit after the
point. -/
def fmt1 (q : ℚ) : String :=
  let n := roundHalfEven (q * 10)
  (if n < 0 then "-" else "") ++ toString (n.natAbs / 10) ++ "." ++
    toString (n.natAbs % 10)

/-- `f-string` formatting with `:.1f` on an extended value: non-finite
values print as nan/inf. -/
def fmt1x : XF → String
  | .fin q => fmt1 q
  | .nan => "nan"
  | .pinf => "inf"
  | .ninf => "-inf"

/-- One `plt.text` call of the loop over the first five components. -/
structure TextLabel where
  x : XF
  y : XF
  text : String
  ha : String
  va : String
  fontsize : ℕ
  deriving DecidableEq, Repr

/-- The `plt.text` loop: `for i, (rank, var) in enumerate(zip(ranks[:5],
proportion_var[:5])): plt.text(rank + 0.3, var - 2, f'PC{rank}\n{var:.1f}%',
ha='left', va='top', fontsize=9)`. -/
def textLabels (rnks : List ℕ) (props : List XF) : List TextLabel :=
  (List.zip (rnks.take 5) (props.take 5)).map (fun p =>
    { x := .fin ((p.1 : ℚ) + 3 / 10)
      y := xsub p.2 (.fin 2)
      text := "PC" ++ toString p.1 ++ "\n" ++ fmt1x p.2 ++ "%"
      ha := "left"
      va := "top"
      fontsize := 9 })

/-- The whole script on the lines of `eigenval.xvg`: load, analyze, run the
renderer steps in program order (the ylim indexing happens before the text
loop), and only if everything succeeded write the two output files.  The
result is the list of files written; an exception aborts with no file
written. -/
def runScript (lines : List String) : Except PyErr (List String) := do
  let eigenvalues ← load_eigenvalues lines
  let props := proportion_var eigenvalues
  let rnks := ranks eigenvalues.length
  let _yMax ← ylimUpper props
  let _labels := textLabels rnks props
  pure ["variance_vs_rank.png", "variance_vs_rank.svg"]

/-- Output files produced by a run: none when the script aborts with an
exception. -/
def filesWritten (lines : List String) : List String :=
  match runScript lines with
  | .ok fs => fs
  | .error _ => []

end VarEigen

namespace VarEigen

/-! ### Helper lemmas -/

theorem ranks_getElem? (n i : ℕ) (hi : i < n) : (ranks n)[i]? = some (i + 1) := by
  have hlen : i < (ranks n).length := by simpa [ranks] using hi
  rw [List.getElem?_eq_getElem hlen]
  simp [ranks, List.getElem_range', Nat.add_comm]

theorem secondToken?_of_split {line : String} {a t : String} {rest : List String}
    (h : pySplit (pyStrip line) = a :: t :: rest) : secondToken? line = some t := by
  simp [secondToken?, h]

theorem load_eigenvalues_eq_mapM (lines : List String) :
    load_eigenvalues lines = (lines.filter qualifies).mapM parseLine := by
  induction lines with
  | nil => rfl
  | cons line rest ih =>
    by_cases hc : isCommentLine line
    · have hq : qualifies line = false := by simp [qualifies, hc]
      simp [load_eigenvalues, hc, List.filter_cons, hq, ih]
    · cases hsp : pySplit (pyStrip line) with
      | nil =>
        have hq : qualifies line = false := by simp [qualifies, hc, secondToken?, hsp]
        simp [load_eigenvalues, hc, hsp, List.filter_cons, hq, ih]
      | cons a ts =>
        cases ts with
        | nil =>
          have hq : qualifies line = false := by simp [qualifies, hc, secondToken?, hsp]
          simp [load_eigenvalues, hc, hsp, List.filter_cons, hq, ih]
        | cons t ts' =>
          have hst : secondToken? line = some t := secondToken?_of_split hsp
          have hq : qualifies line = true := by simp [qualifies, hc, hst]
          rw [List.filter_cons_of_pos hq, List.mapM_cons]
          cases hp : pyFloat? t with
          | none =>
            simp [load_eigenvalues, hc, hsp, hp, parseLine, hst, Bind.bind, Except.bind]
          | some v =>
            simp only [load_eigenvalues, hc, Bool.false_eq_true, if_false, hsp, hp, ih,
              parseLine, hst, Option.bind_some]
            cases (rest.filter qualifies).mapM parseLine <;>
              simp [hp, Bind.bind, Except.bind, Except.map, pure, Except.pure]

theorem mapM_ok_length {α : Type} (f : α → Except PyErr ℚ) (l : List α) (vs : List ℚ)
    (h : l.mapM f = .ok vs) : vs.length = l.length := by
  induction l generalizing vs with
  | nil =>
    rw [List.mapM_nil] at h
    simp only [pure, Except.pure, Except.ok.injEq] at h
    simp [← h]
  | cons a rest ih =>
    rw [List.mapM_cons] at h
    cases hf : f a with
    | error e => rw [hf] at h; simp [Bind.bind, Except.bind] at h
    | ok v =>
      rw [hf] at h
      cases hr : rest.mapM f with
      | error e =>
        rw [hr] at h; simp [Bind.bind, Except.bind] at h
      | ok ws =>
        rw [hr] at h
        simp only [Bind.bind, Except.bind, pure, Except.pure, Except.ok.injEq] at h
        subst h
        simp [ih ws hr]

end VarEigen

namespace VarEigen

/-! ### Claim theorems -/

/-- C2: the loader skips every line whose raw line begins with '#' or '@',
silently skips every other line with fewer than two whitespace tokens, and
parses the second token of each remaining line with `float`, appending the
results; its output is the in-order traversal of exactly the qualifying
data lines, so on success the length equals the number of qualifying lines
and the order matches file line order. -/
theorem loader_filters_and_parses_in_order (lines : List String) :
    load_eigenvalues lines = (lines.filter qualifies).mapM parseLine ∧
    (∀ line, isCommentLine line = true → qualifies line = false) ∧
    (∀ line, secondToken? line = none → qualifies line = false) ∧
    ∀ vs, load_eigenvalues lines = .ok vs →
      vs.length = (lines.filter qualifies).length := by
  refine ⟨load_eigenvalues_eq_mapM lines, ?_, ?_, ?_⟩
  · intro line h
    simp [qualifies, h]
  · intro line h
    simp [qualifies, h]
  · intro vs hok
    rw [load_eigenvalues_eq_mapM lines] at hok
    exact mapM_ok_length parseLine _ vs hok

/-- Witness for C2 at a concrete file: a comment line, a qualifying data
line and a one-token line; the loader keeps exactly the data line. -/
theorem loader_filters_and_parses_in_order_witness :
    load_eigenvalues [ "# h", "1 2.5", "x"] = .ok [ 5 / 2] ∧
    ([ (5 : ℚ) / 2]).length = (([ "# h", "1 2.5", "x"]).filter qualifies).length := by
  refine ⟨by with_unfolding_all rfl, ?_⟩
  exact (loader_filters_and_parses_in_order [ "# h", "1 2.5", "x"]).2.2.2
    [ 5 / 2] (by with_unfolding_all rfl)

/-- C4: the rank sequence for an eigenvalue sequence of length N is exactly
[1, 2, ..., N]: it has length N and entry i (0-based) is i + 1. -/
theorem ranks_are_one_to_n (l : List ℚ) :
    (ranks l.length).length = l.length ∧
    ∀ i, i < l.length → (ranks l.length)[i]? = some (i + 1) := by
  refine ⟨by simp [ranks], ?_⟩
  intro i hi
  exact ranks_getElem? l.length i hi

/-- Witness for C4 at the concrete sequence [10, 5, 5]. -/
theorem ranks_are_one_to_n_witness :
    (ranks ([ (10 : ℚ), 5, 5]).length).length = ([ (10 : ℚ), 5, 5]).length ∧
    (ranks ([ (10 : ℚ), 5, 5]).length)[2]? = some 3 :=
  ⟨(ranks_are_one_to_n [ 10, 5, 5]).1,
    (ranks_are_one_to_n [ 10, 5, 5]).2 2 (by decide)⟩

/-- C6: on the concrete input lines of the spec scenario the loader yields
[10.0, 5.0, 5.0], the total is 20.0, the proportions are [50.0, 25.0, 25.0]
and the ranks are [1, 2, 3]. -/
theorem scenario_three_components :
    load_eigenvalues [ "# comment", "@ comment", "1 10.0", "2 5.0", "3 5.0"] =
      .ok [ 10, 5, 5] ∧
    total_variance [ 10, 5, 5] = 20 ∧
    proportion_var [ 10, 5, 5] = [ .fin 50, .fin 25, .fin 25] ∧
    ranks ([ (10 : ℚ), 5, 5]).length = [ 1, 2, 3] :=
  ⟨by with_unfolding_all rfl, by with_unfolding_all rfl, by with_unfolding_all rfl,
    by with_unfolding_all rfl⟩

/-- C7: on the single data line "1 7.5" the proportions are [100.0], the
Y-axis upper limit is 105.0 with no indexing error, and the whole script
succeeds. -/
theorem scenario_single_line :
    load_eigenvalues [ "1 7.5"] = .ok [ 15 / 2] ∧
    proportion_var [ 15 / 2] = [ .fin 100] ∧
    ylimUpper (proportion_var [ 15 / 2]) = .ok (.fin 105) ∧
    runScript [ "1 7.5"] = .ok [ "variance_vs_rank.png", "variance_vs_rank.svg"] :=
  ⟨by with_unfolding_all rfl, by with_unfolding_all rfl, by with_unfolding_all rfl,
    by with_unfolding_all rfl⟩

end VarEigen

namespace VarEigen

theorem sum_map_mul_const (L : List ℚ) (r : ℚ) :
    (L.map (fun v => v * r)).sum = L.sum * r := by
  induction L with
  | nil => simp
  | cons a t ih => simp [ih, add_mul]

/-- C3: with a non-zero total, the proportion sequence has the input's
length, each entry is (value / total) * 100, and the entries sum to exactly
100 in the exact-rational model (so to 100.0 within any floating-point
tolerance). -/
theorem proportions_sum_to_100 (l : List ℚ) (_hne : l ≠ [])
    (ht : total_variance l ≠ 0) :
    (proportion_var l).length = l.length ∧
    proportion_var l = l.map (fun v => XF.fin (v / total_variance l * 100)) ∧
    (l.map (fun v => v / total_variance l * 100)).sum = 100 := by
  refine ⟨by simp [proportion_var], ?_, ?_⟩
  · unfold proportion_var
    apply List.map_congr_left
    intro v hv
    simp [xdiv, xmul, ht]
  · have hcongr : l.map (fun v => v / total_variance l * 100)
        = l.map (fun v => v * (100 / total_variance l)) := by
      apply List.map_congr_left
      intro v hv
      ring
    rw [hcongr, sum_map_mul_const]
    show total_variance l * (100 / total_variance l) = 100
    rw [mul_comm]
    exact div_mul_cancel₀ 100 ht

/-- Witness for C3 at the concrete sequence [10, 5, 5]. -/
theorem proportions_sum_to_100_witness :
    (proportion_var [ 10, 5, 5]).length = ([ (10 : ℚ), 5, 5]).length ∧
    proportion_var [ 10, 5, 5]
      = ([ (10 : ℚ), 5, 5]).map (fun v => XF.fin (v / total_variance [ 10, 5, 5] * 100)) ∧
    (([ (10 : ℚ), 5, 5]).map (fun v => v / total_variance [ 10, 5, 5] * 100)).sum = 100 :=
  proportions_sum_to_100 [ 10, 5, 5] (by decide) (by with_unfolding_all decide)

/-- C8: when the total variance is zero the analyzer still produces one
value per input entry, every produced value is non-finite (nan or ±inf, as
numpy's division-by-zero warning semantics give), and the values reach the
renderer as-is: the Y-limit step consumes them without failing, since the
analyzer has no error path and raises nothing. -/
theorem zero_total_propagates_nonfinite (l : List ℚ) (hne : l ≠ [])
    (h0 : total_variance l = 0) :
    (proportion_var l).length = l.length ∧
    (∀ x ∈ proportion_var l, x.isFinite = false) ∧
    ∃ y, ylimUpper (proportion_var l) = .ok y := by
  refine ⟨by simp [proportion_var], ?_, ?_⟩
  · intro x hx
    simp only [proportion_var, List.mem_map] at hx
    obtain ⟨v, hv, rfl⟩ := hx
    rw [h0]
    rcases lt_trichotomy v 0 with h | h | h
    · norm_num [xdiv, xmul, h.ne, h.not_lt, XF.isFinite]
    · norm_num [xdiv, xmul, h, XF.isFinite]
    · norm_num [xdiv, xmul, h.ne', h, XF.isFinite]
  · cases l with
    | nil => exact absurd rfl hne
    | cons a t => exact ⟨_, rfl⟩

/-- Witness for C8 at the concrete sequence [0]: the single proportion is
0/0, a nan. -/
theorem zero_total_propagates_nonfinite_witness :
    (proportion_var [ 0]).length = ([ (0 : ℚ)]).length ∧
    (∀ x ∈ proportion_var [ 0], x.isFinite = false) ∧
    ∃ y, ylimUpper (proportion_var [ (0 : ℚ)]) = .ok y :=
  zero_total_propagates_nonfinite [ 0] (by decide) (by with_unfolding_all rfl)

theorem load_error_of_bad (lines : List String) :
    (∃ line ∈ lines, qualifies line = true ∧ (secondToken? line).bind pyFloat? = none) →
    load_eigenvalues lines = .error .valueError := by
  induction lines with
  | nil => intro h; simp at h
  | cons a rest ih =>
    intro h
    obtain ⟨line, hmem, hq, hb⟩ := h
    rcases List.mem_cons.mp hmem with rfl | hmem'
    · have hc : isCommentLine line = false := by
        cases h : isCommentLine line
        · rfl
        · simp [qualifies, h] at hq
      cases hsp : pySplit (pyStrip line) with
      | nil => simp [qualifies, secondToken?, hsp, hc] at hq
      | cons x ts =>
        cases ts with
        | nil => simp [qualifies, secondToken?, hsp, hc] at hq
        | cons t ts' =>
          have hst : secondToken? line = some t := secondToken?_of_split hsp
          rw [hst, Option.some_bind] at hb
          simp [load_eigenvalues, hc, hsp, hb]
    · have herr := ih ⟨line, hmem', hq, hb⟩
      by_cases hc : isCommentLine a
      · simp [load_eigenvalues, hc, herr]
      · cases hsp : pySplit (pyStrip a) with
        | nil => simp [load_eigenvalues, hc, hsp, herr]
        | cons x ts =>
          cases ts with
          | nil => simp [load_eigenvalues, hc, hsp, herr]
          | cons t ts' =>
            cases hp : pyFloat? t with
            | none => simp [load_eigenvalues, hc, hsp, hp]
            | some v => simp [load_eigenvalues, hc, hsp, hp, herr, Except.map]

/-- C5: a non-comment line with at least two tokens whose second token does
not parse as a float makes the whole load fail with a ValueError, the
script aborts, and no output file is written, since the savefig calls come
only after every earlier step succeeded. -/
theorem parse_failure_writes_no_files (lines : List String) (line : String)
    (hmem : line ∈ lines) (hq : qualifies line = true)
    (hbad : (secondToken? line).bind pyFloat? = none) :
    load_eigenvalues lines = .error .valueError ∧
    runScript lines = .error .valueError ∧
    filesWritten lines = [] := by
  have h := load_error_of_bad lines ⟨line, hmem, hq, hbad⟩
  refine ⟨h, ?_, ?_⟩
  · simp [runScript, h, Bind.bind, Except.bind]
  · simp [filesWritten, runScript, h, Bind.bind, Except.bind]

/-- Witness for C5 at the single line "1 abc". -/
theorem parse_failure_writes_no_files_witness :
    load_eigenvalues [ "1 abc"] = .error .valueError ∧
    runScript [ "1 abc"] = .error .valueError ∧
    filesWritten [ "1 abc"] = [] :=
  parse_failure_writes_no_files [ "1 abc"] ("1 abc") (by decide) (by decide) (by decide)

end VarEigen

namespace VarEigen

theorem toString_digit (m : ℕ) (hm : m < 10) :
    (toString m).length = 1 ∧ (toString m).all Char.isDigit = true := by
  interval_cases m <;>
    exact ⟨by with_unfolding_all decide, by with_unfolding_all decide⟩

theorem fmt1_one_decimal_digit (q : ℚ) :
    ∃ s d, fmt1 q = s ++ "." ++ d ∧ d.length = 1 ∧ d.all Char.isDigit = true := by
  refine ⟨(if roundHalfEven (q * 10) < 0 then "-" else "") ++
      toString ((roundHalfEven (q * 10)).natAbs / 10),
    toString ((roundHalfEven (q * 10)).natAbs % 10), rfl, ?_, ?_⟩
  · exact (toString_digit _ (Nat.mod_lt _ (by norm_num))).1
  · exact (toString_digit _ (Nat.mod_lt _ (by norm_num))).2

/-- C9: exactly the first min(5, N) rank/proportion pairs get a text label;
label i sits at (rank + 0.3, proportion - 2) with left/top alignment at
font size 9, and its text is "PC<rank>", a newline, then the proportion
formatted with exactly one digit after the decimal point and '%'. -/
theorem first_five_text_labels (l : List ℚ) :
    (textLabels (ranks l.length) (proportion_var l)).length = min 5 l.length ∧
    (∀ i, i < min 5 l.length →
      ∃ p, (proportion_var l)[i]? = some p ∧
        (textLabels (ranks l.length) (proportion_var l))[i]? = some
          { x := .fin (((i + 1 : ℕ) : ℚ) + 3 / 10)
            y := xsub p (.fin 2)
            text := "PC" ++ toString (i + 1) ++ "\n" ++ fmt1x p ++ "%"
            ha := "left"
            va := "top"
            fontsize := 9 }) ∧
    ∀ q : ℚ, ∃ s d, fmt1 q = s ++ "." ++ d ∧ d.length = 1 ∧
      d.all Char.isDigit = true := by
  refine ⟨?_, ?_, fmt1_one_decimal_digit⟩
  · simp [textLabels, ranks, proportion_var]
  · intro i hi
    have hi5 : i < 5 := lt_of_lt_of_le hi (Nat.min_le_left _ _)
    have hiN : i < l.length := lt_of_lt_of_le hi (Nat.min_le_right _ _)
    have hlen : i < (proportion_var l).length := by
      simpa [proportion_var] using hiN
    refine ⟨(proportion_var l)[i], List.getElem?_eq_getElem hlen, ?_⟩
    have hz : (List.zip ((ranks l.length).take 5)
        ((proportion_var l).take 5))[i]? = some (i + 1, (proportion_var l)[i]) := by
      apply List.getElem?_zip_eq_some.mpr
      constructor
      · rw [List.getElem?_take, if_pos hi5]
        exact ranks_getElem? l.length i hiN
      · rw [List.getElem?_take, if_pos hi5]
        exact List.getElem?_eq_getElem hlen
    simp [textLabels, List.getElem?_map, hz]

/-- Witness for C9 at the concrete sequence [10, 5, 5] and index 0. -/
theorem first_five_text_labels_witness :
    (textLabels (ranks ([ (10 : ℚ), 5, 5]).length)
        (proportion_var [ 10, 5, 5])).length = min 5 ([ (10 : ℚ), 5, 5]).length ∧
    (∃ p, (proportion_var [ (10 : ℚ), 5, 5])[0]? = some p ∧
      (textLabels (ranks ([ (10 : ℚ), 5, 5]).length)
          (proportion_var [ 10, 5, 5]))[0]? = some
        { x := .fin (((0 + 1 : ℕ) : ℚ) + 3 / 10)
          y := xsub p (.fin 2)
          text := "PC" ++ toString (0 + 1) ++ "\n" ++ fmt1x p ++ "%"
          ha := "left"
          va := "top"
          fontsize := 9 }) ∧
    (∃ s d, fmt1 50 = s ++ "." ++ d ∧ d.length = 1 ∧ d.all Char.isDigit = true) :=
  ⟨(first_five_text_labels [ 10, 5, 5]).1,
    (first_five_text_labels [ 10, 5, 5]).2.1 0 (by decide),
    (first_five_text_labels [ 10, 5, 5]).2.2 50⟩

/-- C1, counterexample: on an input with zero qualifying data lines the
script does not detect the empty sequence beforehand; the Y-limit
computation itself performs the indexing into the empty proportion array
and the run aborts with exactly that IndexError, not with an explicit
precondition failure raised before the indexing. -/
theorem empty_input_hits_index_error :
    ylimUpper ([] : List XF) = .error .indexError ∧
    runScript [ "# only a header"] = .error .indexError :=
  ⟨rfl, by with_unfolding_all rfl⟩

/-- C1, amended: when the loader yields an empty sequence the run fails
with the IndexError arising inside the Y-limit computation (there is no
explicit length >= 1 check before it), and the annotation loop is clamped
to min(5, length) pairs by slice semantics rather than by any guard. -/
theorem empty_input_index_error_amended (lines : List String)
    (h : load_eigenvalues lines = .ok []) :
    runScript lines = .error .indexError ∧
    ∀ l : List ℚ, (textLabels (ranks l.length) (proportion_var l)).length
      = min 5 l.length := by
  constructor
  · simp [runScript, h, Bind.bind, Except.bind, proportion_var, ylimUpper]
  · intro l
    simp [textLabels, ranks, proportion_var]

/-- Witness for the amended C1 at a file holding one header line. -/
theorem empty_input_index_error_amended_witness :
    runScript [ "# x"] = .error .indexError ∧
    (textLabels (ranks ([] : List ℚ).length) (proportion_var [])).length
      = min 5 ([] : List ℚ).length :=
  ⟨(empty_input_index_error_amended [ "# x"] rfl).1,
    (empty_input_index_error_amended [ "# x"] rfl).2 []⟩

/-- C10: the comment test looks at the raw line, tokenization strips
first: a line whose first character is whitespace is never skipped as a
comment whatever follows it; concretely, " # foo" tokenizes to
["#", "foo"] and `float("foo")` aborts the load with a ValueError. -/
theorem comment_check_raw_strip_tokenize (w : Char) (s : List Char)
    (hw : w.isWhitespace = true) :
    isCommentLine (String.mk (w :: s)) = false ∧
    pySplit (pyStrip (" # foo")) = [ "#", "foo"] ∧
    load_eigenvalues [ " # foo"] = .error .valueError := by
  refine ⟨?_, by decide, rfl⟩
  have h1 : w ≠ '#' := fun h => by rw [h] at hw; exact absurd hw (by decide)
  have h2 : w ≠ '@' := fun h => by rw [h] at hw; exact absurd hw (by decide)
  simp [isCommentLine, h1, h2]

/-- Witness for C10 at the whitespace character ' '. -/
theorem comment_check_raw_strip_tokenize_witness :
    isCommentLine (String.mk (' ' :: ('#' :: []))) = false ∧
    pySplit (pyStrip (" # foo")) = [ "#", "foo"] ∧
    load_eigenvalues [ " # foo"] = .error .valueError :=
  comment_check_raw_strip_tokenize ' ' ('#' :: []) (by decide)

end VarEigen
